import Mathlib

/-!
Shallow embedding of the aeap-speech-to-text negotiation/dispatch core:
`lib/utils.js`, the codec negotiator (`Codecs`), `lib/languages.js`,
`lib/provider.js` (GoogleProvider) and `lib/dispatcher.js`.
-/

set_option maxRecDepth 4096

/-! ## Capability data model -/

/-- A codec capability descriptor, as in the codec negotiator's `supported`
list: `{name, sampleRate, attributes}`. -/
structure Codec where
  name : String
  sampleRate : Nat
  attributes : List String := []
deriving DecidableEq

/-- The codec negotiator's universal `supported` list. -/
def supportedCodecs : List Codec :=
  [⟨"ulaw", 8000, []⟩, ⟨"slin16", 16000, []⟩, ⟨"opus", 48000, []⟩]

/-- Codec equality callback `equal(obj1, obj2)`: compares by `name`.
(The JS `obj1 == obj2` reference check in `utils.equals` can only be true when
the names also agree, so name comparison captures `equals` for codecs.) -/
def Codec.equal (obj1 obj2 : Codec) : Bool := obj1.name == obj2.name

/-- Codec `toString`: comma separated names. -/
def codecsToString (objs : List Codec) : String :=
  String.intercalate ", " (objs.map (fun o => o.name))

/-- Language equality: JS `==` on strings is value equality (no callback is
passed for languages in `languages.js`). -/
def langEq (obj1 obj2 : String) : Bool := obj1 == obj2

/-- The language list `supported` from `languages.js`. -/
def supportedLanguages : List String := ["en-US"]

/-- Language `toString`: comma separated values. -/
def languagesToString (objs : List String) : String :=
  String.intercalate ", " objs

/-! ## utils.js -/

namespace Utils

/-- `utils.intersect(objs1, objs2, eq)`: nested loops over `objs1` (outer) and
`objs2` (inner), pushing `obj1` on every match (no break, so an element of
`objs1` is pushed once per matching element of `objs2`). -/
def intersect (eq : α → α → Bool) : List α → List α → List α
  | [], _ => []
  | obj1 :: rest, objs2 =>
    ((objs2.filter (eq obj1)).map (fun _ => obj1)) ++ intersect eq rest objs2

/-- `utils.first(objs1, objs2, eq)`: first element of the intersection
(`undefined`, i.e. `none`, when the intersection is empty). -/
def first (eq : α → α → Bool) (objs1 objs2 : List α) : Option α :=
  (intersect eq objs1 objs2).head?

end Utils

/-! ## Codec negotiator (Codecs class) -/

/-- Negotiator state: `codecs` is the allowed list, `selected` the currently
selected codec (`undefined` when the allowed list is empty). -/
structure Codecs where
  codecs : List Codec
  selected : Option Codec
deriving DecidableEq

/-- `Codecs` constructor: `codecs = options.codecs ?
intersect(supported, options.codecs, equal) : supported`;
`selected = codecs[0]`. -/
def Codecs.make (optionsCodecs : Option (List Codec)) : Codecs :=
  let cs := match optionsCodecs with
    | some configured => Utils.intersect Codec.equal supportedCodecs configured
    | none => supportedCodecs
  ⟨cs, cs.head?⟩

/-- `Codecs.first(codecs)`: `utils.first(this.codecs, codecs, equal)`;
if falsy (no match — codec objects themselves are never falsy), throws
`"Codec <names> not supported"`. -/
def Codecs.first (self : Codecs) (candidates : List Codec) : Except String Codec :=
  match Utils.first Codec.equal self.codecs candidates with
  | some res => .ok res
  | none => .error ("Codec " ++ codecsToString candidates ++ " not supported")

/-! ## Language negotiator (Languages class) -/

/-- Negotiator state from `languages.js`. -/
structure Languages where
  languages : List String
  selected : Option String
deriving DecidableEq

/-- `Languages` constructor. -/
def Languages.make (optionsLanguages : Option (List String)) : Languages :=
  let ls := match optionsLanguages with
    | some configured => Utils.intersect langEq supportedLanguages configured
    | none => supportedLanguages
  ⟨ls, ls.head?⟩

/-- `Languages.first(languages)`: `utils.first(this.languages, languages)`;
the JS `if (res)` falsy test also rejects the empty string, hence the extra
guard. Throws `"Language <langs> not supported"` otherwise. -/
def Languages.first (self : Languages) (candidates : List String) : Except String String :=
  match Utils.first langEq self.languages candidates with
  | some res =>
    if res == "" then
      .error ("Language " ++ languagesToString candidates ++ " not supported")
    else
      .ok res
  | none => .error ("Language " ++ languagesToString candidates ++ " not supported")

/-! ## Spec-side definition (for the refinement claim about `allowed`) -/

/-- Modelled from the spec's words: "allowed = U ∩ C, preserving U's order" —
the elements of the universal list that match some element of the configured
list, in the universal list's order. -/
def specAllowed (eq : α → α → Bool) (universal configured : List α) : List α :=
  universal.filter (fun u => configured.any (eq u))

/-! ## provider.js (GoogleProvider) -/

/-- A recognition result `{text, score}`. -/
structure SResult where
  text : String
  score : Nat
deriving DecidableEq

/-- The provider's internal recognition config. The `encodingencoding` field
mirrors the stray property created by `setConfig`'s
`update.encodingencoding = ...` assignment (the mapped encoding is written to
that key, not to `encoding`). -/
structure PConfig where
  encoding : String
  sampleRateHertz : Nat
  languageCode : String
  encodingencoding : Option String := none
deriving DecidableEq

/-- Constructor defaults: `MULAW`, 8000 Hz, `en-US`. -/
def defaultPConfig : PConfig :=
  { encoding := "MULAW", sampleRateHertz := 8000, languageCode := "en-US" }

def DEFAULT_RESTART_TIME : Nat := 10

def DEFAULT_MAX_RESULTS : Nat := 100

/-- Provider state relevant to the modelled claims. -/
structure GoogleProvider where
  config : PConfig
  restartTimeout : Nat
  maxResults : Nat
  results : List SResult
deriving DecidableEq

/-- Static `GoogleProvider.encodings` map. -/
def GoogleProvider.encodings : List (String × String) :=
  [("ulaw", "MULAW"), ("slin16", "LINEAR16"), ("opus", "OGG Opus")]

/-- Static `GoogleProvider.languages` list. -/
def GoogleProvider.languages : List String := ["en-US"]

/-- Options accepted by the `GoogleProvider` constructor. -/
structure ProviderOptions where
  restartTime : Option Nat := none
  maxResults : Option Nat := none
deriving DecidableEq

/-- JS `options && options.field || DEFAULT`: an absent options object, an
absent field, or the falsy value `0` all fall through to the default. -/
def jsOrNat (v : Option Nat) (dflt : Nat) : Nat :=
  match v with
  | some n => if n = 0 then dflt else n
  | none => dflt

/-- `GoogleProvider` constructor: default config, option/default resolution
for `restartTimeout` and `maxResults`, empty results buffer. -/
def GoogleProvider.make (options : Option ProviderOptions) : GoogleProvider :=
  { config := defaultPConfig
    restartTimeout := jsOrNat (options.bind (fun o => o.restartTime)) DEFAULT_RESTART_TIME
    maxResults := jsOrNat (options.bind (fun o => o.maxResults)) DEFAULT_MAX_RESULTS
    results := [] }

/-- A `{codec, language}` configuration as passed to `setConfig`/`restart`. -/
structure SpeechConfig where
  codec : Option Codec := none
  language : Option String := none
deriving DecidableEq

/-- `GoogleProvider.setConfig(config)`: no-op on a falsy config; otherwise
builds an `update` object — mapped encoding (written, per the source, to the
`encodingencoding` key) and sample rate for a recognized codec, language code
for a recognized language — throwing before any merge when the codec or the
language is not in the provider's static sets; finally merges the update into
the internal config. -/
def GoogleProvider.setConfig (self : GoogleProvider) (config : Option SpeechConfig) :
    Except String GoogleProvider :=
  match config with
  | none => .ok self
  | some cfg =>
    let afterCodec : Except String PConfig :=
      match cfg.codec with
      | none => .ok self.config
      | some c =>
        match GoogleProvider.encodings.lookup c.name with
        | none => .error ("Codec '" ++ c.name ++ " 'not supported")
        | some enc =>
          .ok { self.config with encodingencoding := some enc, sampleRateHertz := c.sampleRate }
    match afterCodec with
    | .error e => .error e
    | .ok c1 =>
      match cfg.language with
      | none => .ok { self with config := c1 }
      | some l =>
        if GoogleProvider.languages.contains l then
          .ok { self with config := { c1 with languageCode := l } }
        else
          .error ("Language '" ++ l ++ " 'not supported")

/-- The result-buffer append from the provider's `data` handler: when the
buffer already holds `maxResults` entries, `shift()` the oldest out, then
`push` the new result. -/
def GoogleProvider.pushResult (maxResults : Nat) (results : List SResult) (r : SResult) :
    List SResult :=
  let results := if results.length = maxResults then results.tail else results
  results ++ [r]

/-! ## dispatcher.js -/

/-- The `params` field of an inbound request: a JSON array of names (`get`)
or a JSON object (`set`/`setup`). -/
inductive ReqParams where
  | names (ns : List String)
  | fields (fs : List (String × String))
deriving DecidableEq

/-- An inbound request message. -/
structure Request where
  request : String
  id : String
  codecs : Option (List Codec) := none
  params : Option ReqParams := none
deriving DecidableEq

/-- The `params` object of a response (`codecs`/`language` from a `get`,
`language` from a `set`, `results` from a `get results`). -/
structure RespParams where
  codecs : Option Codec := none
  language : Option String := none
  results : Option (List SResult) := none
deriving DecidableEq

/-- An outbound response message. -/
structure Response where
  response : String
  id : String
  codecs : Option (List Codec) := none
  params : Option RespParams := none
  error_msg : Option String := none
deriving DecidableEq

/-- The per-session `speech` object handed to the dispatcher. -/
structure Speech where
  codecs : Codecs
  languages : Languages
  provider : GoogleProvider
deriving DecidableEq

/-- `Object.entries(request.params)`: on a JSON object its key/value pairs; on
a JSON array the index/value pairs (stringified indices). -/
def entriesOf : ReqParams → List (String × String)
  | .fields fs => fs
  | .names ns => ns.enum.map (fun p => (toString p.1, p.2))

/-- The `for (let p of request.params)` loop of `handleGetRequest`: builds the
response params while draining the results buffer on `"results"`; an
unrecognized name hits the `console.warn` line, which reads the undefined
variable `k` and so raises `ReferenceError: k is not defined`. The buffer
mutations made before the error persist, so the buffer state is returned in
either case. -/
def getLoop (speech : Speech) :
    List String → RespParams → List SResult → (Except String RespParams) × List SResult
  | [], acc, buf => (.ok acc, buf)
  | p :: rest, acc, buf =>
    if p == "codec" then
      getLoop speech rest { acc with codecs := speech.codecs.selected } buf
    else if p == "language" then
      getLoop speech rest { acc with language := speech.languages.selected } buf
    else if p == "results" then
      getLoop speech rest { acc with results := some buf } []
    else
      (.error "k is not defined", buf)

/-- `handleGetRequest`: throws on a missing `params`; iterating a JSON object
with `for..of` raises a `TypeError`; otherwise runs the name loop. Returns the
outcome together with the provider's results buffer after the call. -/
def handleGetRequest (speech : Speech) (r : Request) :
    (Except String RespParams) × List SResult :=
  match r.params with
  | none => (.error "Missing request parameters", speech.provider.results)
  | some (.fields _) => (.error "request.params is not iterable", speech.provider.results)
  | some (.names ns) => getLoop speech ns {} speech.provider.results

/-- The `Object.entries(request.params)` loop of `handleSetRequest`: every
`language` entry is resolved against the language negotiator (any failure
aborts the whole request); later entries overwrite earlier ones in the local
`params` object, so the result is the last validated value; non-`language`
keys are warned about and skipped. -/
def collectSetParams (langs : Languages) :
    List (String × String) → Except String (Option String)
  | [] => .ok none
  | (k, v) :: rest =>
    if k == "language" then
      match langs.first [v] with
      | .error e => .error e
      | .ok l =>
        match collectSetParams langs rest with
        | .error e => .error e
        | .ok restLang =>
          .ok (match restLang with
            | some l2 => some l2
            | none => some l)
    else
      collectSetParams langs rest

/-- Successful outcome of `handleSetRequest`: updated negotiators, the
response's `codecs`/`params` fields, and the argument of the `restart` call
made when the response carries `codecs` or `params`. -/
structure SetOk where
  codecs : Codecs
  languages : Languages
  respCodecs : Option (List Codec)
  respParams : Option RespParams
  restartArg : Option SpeechConfig
deriving DecidableEq

/-- `handleSetRequest`: throws `"Missing request parameters"` unless both
`request.codecs` and `request.params` are present; resolves the codec
candidates first, then every `language` entry; only then assigns the new
`selected` values, populates the response, and — since by then the response
carries at least `codecs` — calls `provider.restart` with the merged
`{codec: selected, language: selected}`. -/
def handleSetRequest (speech : Speech) (r : Request) : Except String SetOk :=
  match r.codecs, r.params with
  | some reqCodecs, some reqParams =>
    match speech.codecs.first reqCodecs with
    | .error e => .error e
    | .ok codec =>
      match collectSetParams speech.languages (entriesOf reqParams) with
      | .error e => .error e
      | .ok langOpt =>
        let newCodecs : Codecs := { speech.codecs with selected := some codec }
        let newLangs : Languages :=
          match langOpt with
          | some l => { speech.languages with selected := some l }
          | none => speech.languages
        .ok { codecs := newCodecs
              languages := newLangs
              respCodecs := some [codec]
              respParams :=
                match langOpt with
                | some l => some { language := some l }
                | none => none
              restartArg := some ⟨newCodecs.selected, newLangs.selected⟩ }
  | _, _ => .error "Missing request parameters"

/-- The `Except`-level outcome of the handler the dispatcher routes to:
`ok` when the handler returned normally, `error` carrying the thrown message
otherwise (an unknown request kind makes `handlers[msg.request]` undefined,
and calling it raises a `TypeError`). -/
def handlerResult (speech : Speech) (r : Request) : Except String Unit :=
  if r.request == "get" then
    (handleGetRequest speech r).1.map (fun _ => ())
  else if r.request == "set" || r.request == "setup" then
    (handleSetRequest speech r).map (fun _ => ())
  else
    .error "handlers[msg.request] is not a function"

/-- Full outcome of `handleRequest`: the speech state after the call, the
response that is returned (and then sent), and the argument of the
`provider.restart` call when one was made. -/
structure Outcome where
  speech : Speech
  response : Response
  restartArg : Option SpeechConfig
deriving DecidableEq

/-- `handleRequest(speech, msg)`: builds `{response: msg.request, id: msg.id}`,
routes by `msg.request` through the handler table inside `try/catch`, and
converts any thrown error into `error_msg` on the response. -/
def handleRequest (speech : Speech) (r : Request) : Outcome :=
  let base : Response := { response := r.request, id := r.id }
  if r.request == "get" then
    match handleGetRequest speech r with
    | (.ok params, buf) =>
      { speech := { speech with provider := { speech.provider with results := buf } }
        response := { base with params := some params }
        restartArg := none }
    | (.error e, buf) =>
      { speech := { speech with provider := { speech.provider with results := buf } }
        response := { base with error_msg := some e }
        restartArg := none }
  else if r.request == "set" || r.request == "setup" then
    match handleSetRequest speech r with
    | .ok out =>
      { speech := { speech with codecs := out.codecs, languages := out.languages }
        response := { base with codecs := out.respCodecs, params := out.respParams }
        restartArg := out.restartArg }
    | .error e =>
      { speech := speech
        response := { base with error_msg := some e }
        restartArg := none }
  else
    { speech := speech
      response := { base with error_msg := some "handlers[msg.request] is not a function" }
      restartArg := none }

/-- A parsed textual transport message, as routed by the dispatcher's
`message` listener. -/
inductive TextMsg where
  | req (r : Request)
  | resp (id : String)
  | other
deriving DecidableEq

/-- The textual branch of the dispatcher's `message` listener: a message with
a `request` field is handled and its response is sent; a message with a
`response` field yields `null` (nothing sent); anything else is ignored. -/
def onTextMessage (speech : Speech) : TextMsg → Speech × Option Response
  | .req r =>
    let out := handleRequest speech r
    (out.speech, some out.response)
  | .resp _ => (speech, none)
  | .other => (speech, none)

/-! ## Concrete fixtures used by closed theorems -/

def ulawC : Codec := ⟨"ulaw", 8000, []⟩

def slin16C : Codec := ⟨"slin16", 16000, []⟩

def opusC : Codec := ⟨"opus", 48000, []⟩

/-- A session whose codec negotiator was configured with `[ulaw, slin16]`
(so `opus` is not allowed) and whose language negotiator and provider use
the defaults. -/
def speechEx2 : Speech :=
  { codecs := Codecs.make (some [ulawC, slin16C])
    languages := Languages.make none
    provider := GoogleProvider.make none }

/-- A wholly default session. -/
def speechDefault : Speech :=
  { codecs := Codecs.make none
    languages := Languages.make none
    provider := GoogleProvider.make none }

/-! ## Helper lemmas -/

/-- `utils.first` returns the first element of `objs1` (in `objs1`'s order)
matching any element of `objs2`. -/
theorem Utils.first_eq_find? (eq : α → α → Bool) (objs1 objs2 : List α) :
    Utils.first eq objs1 objs2 = objs1.find? (fun o => objs2.any (eq o)) := by
  induction objs1 with
  | nil => rfl
  | cons o rest ih =>
    unfold Utils.first Utils.intersect
    cases hy : objs2.any (eq o) with
    | true =>
      obtain ⟨c, hc, hec⟩ := List.any_eq_true.mp hy
      have hfind : List.find? (fun x => objs2.any (eq x)) (o :: rest) = some o :=
        List.find?_cons_of_pos _ hy
      rw [hfind]
      cases hf : objs2.filter (eq o) with
      | nil =>
        exact absurd hec ((List.filter_eq_nil_iff.mp hf) c hc)
      | cons c' cs' => simp [hf]
    | false =>
      have hfind : List.find? (fun x => objs2.any (eq x)) (o :: rest) =
          List.find? (fun x => objs2.any (eq x)) rest :=
        List.find?_cons_of_neg _ (by simp [hy])
      rw [hfind]
      have hf : objs2.filter (eq o) = [] :=
        List.filter_eq_nil_iff.mpr (fun a ha hpa => by
          cases hany : objs2.any (eq o) with
          | true => rw [hany] at hy; cases hy
          | false => exact absurd (List.any_eq_true.mpr ⟨a, ha, hpa⟩) (by simp [hany]))
      rw [← ih]
      unfold Utils.first
      simp [hf]

/-- If every element matches at most one configured element, the nested-loop
intersection coincides with the spec's order-preserving filter. -/
theorem Utils.intersect_eq_specAllowed (eq : α → α → Bool) (U C : List α)
    (h : ∀ u, (C.filter (eq u)).length ≤ 1) :
    Utils.intersect eq U C = specAllowed eq U C := by
  induction U with
  | nil => rfl
  | cons u rest ih =>
    unfold Utils.intersect specAllowed
    rw [List.filter_cons]
    cases hy : C.any (eq u) with
    | true =>
      obtain ⟨c, hc, hec⟩ := List.any_eq_true.mp hy
      cases hf : C.filter (eq u) with
      | nil => exact absurd hec ((List.filter_eq_nil_iff.mp hf) c hc)
      | cons c' cs' =>
        have hlen := h u
        rw [hf] at hlen
        have hnil : cs' = [] := by
          cases cs' with
          | nil => rfl
          | cons _ _ => simp at hlen
        subst hnil
        simp only [hf, List.map_cons, List.map_nil, List.cons_append, List.nil_append]
        simpa [specAllowed] using ih
    | false =>
      have hf : C.filter (eq u) = [] :=
        List.filter_eq_nil_iff.mpr (fun a ha hpa =>
          absurd (List.any_eq_true.mpr ⟨a, ha, hpa⟩) (by simp [hy]))
      simp only [hf, List.map_nil, List.nil_append, hy]
      simpa [specAllowed] using ih

/-- If the keys of a list are pairwise distinct, any fixed key matches at most
one of its elements. -/
theorem filter_key_length_le_one (key : α → String) (C : List α)
    (h : (C.map key).Nodup) (n : String) :
    (C.filter (fun c => n == key c)).length ≤ 1 := by
  induction C with
  | nil => simp
  | cons c rest ih =>
    rw [List.map_cons, List.nodup_cons] at h
    rw [List.filter_cons]
    cases hn : (n == key c) with
    | false => simpa using ih h.2
    | true =>
      have hkey : n = key c := by simpa using hn
      have hrest : rest.filter (fun d => n == key d) = [] :=
        List.filter_eq_nil_iff.mpr (fun d hd hpd => by
          have : key c = key d := by rw [← hkey]; simpa using hpd
          exact h.1 (this ▸ List.mem_map_of_mem key hd))
      simp [hrest]

/-! ## Claim theorems -/

/-- C4: `select` (implemented as `first`) returns the first element of the
allowed list, in the allowed list's order and not the candidate list's order,
that equals some candidate under the type's equality (name equality for
codecs, value equality for languages); when no element of allowed matches any
candidate it returns the `UnsupportedCapability`-style error. `first` is a
pure query: it takes no mutable state, so `selected` is untouched on both
paths. The hypothesis excludes the empty string from the language allowed
list (the JS falsy test would misfire on it; no reachable negotiator state
contains it, since the universal language set is `["en-US"]`). -/
theorem select_returns_first_allowed_match
    (nc : Codecs) (cands : List Codec) (nl : Languages) (ls : List String)
    (hno : "" ∉ nl.languages) :
    (nc.first cands =
      match nc.codecs.find? (fun o => cands.any (Codec.equal o)) with
      | some r => Except.ok r
      | none => Except.error ("Codec " ++ codecsToString cands ++ " not supported")) ∧
    (nl.first ls =
      match nl.languages.find? (fun o => ls.any (langEq o)) with
      | some r => Except.ok r
      | none => Except.error ("Language " ++ languagesToString ls ++ " not supported")) := by
  constructor
  · unfold Codecs.first
    rw [Utils.first_eq_find?]
  · unfold Languages.first
    rw [Utils.first_eq_find?]
    cases hf : nl.languages.find? (fun o => ls.any (langEq o)) with
    | none => rfl
    | some r =>
      have hr : r ∈ nl.languages := List.mem_of_find?_eq_some hf
      have hne : ¬r = "" := fun h => hno (h ▸ hr)
      have hbeq : (r == "") = false := by simpa using hne
      simp [hbeq]

/-- Witness for C4 at a concrete negotiator state and candidate list. -/
theorem select_returns_first_allowed_match_witness :
    ("" ∉ (Languages.make none).languages) ∧
    ((Codecs.make none).first [slin16C] =
      match (Codecs.make none).codecs.find? (fun o => [slin16C].any (Codec.equal o)) with
      | some r => Except.ok r
      | none => Except.error ("Codec " ++ codecsToString [slin16C] ++ " not supported")) :=
  ⟨by decide,
   (select_returns_first_allowed_match (Codecs.make none) [slin16C]
     (Languages.make none) ["en-US"] (by decide)).1⟩

/-- C5: for every ordered universal set `U` and configured list `C` with
pairwise-distinct names, the nested-loop intersection equals the spec's
"U ∩ C in U's order"; a freshly constructed codec negotiator has
`allowed = supported ∩ C` (and `allowed = supported` when no configured set
is given) and `selected` equal to `allowed`'s first element; and the spec's
example instance holds: configuring `[ulaw, slin16]` gives
`allowed = [ulaw, slin16]` and `selected = ulaw`. -/
theorem negotiator_construction_allowed
    (U C : List Codec) (hnd : (C.map (fun c => c.name)).Nodup) :
    Utils.intersect Codec.equal U C = specAllowed Codec.equal U C ∧
    (Codecs.make (some C)).codecs = specAllowed Codec.equal supportedCodecs C ∧
    (Codecs.make (some C)).selected = (specAllowed Codec.equal supportedCodecs C).head? ∧
    (Codecs.make none).codecs = supportedCodecs ∧
    (Codecs.make none).selected = some ulawC ∧
    Codecs.make (some [ulawC, slin16C]) = ⟨[ulawC, slin16C], some ulawC⟩ := by
  have hkey : ∀ u : Codec, (C.filter (Codec.equal u)).length ≤ 1 := fun u =>
    filter_key_length_le_one (fun c => c.name) C hnd u.name
  have hmain : ∀ U' : List Codec,
      Utils.intersect Codec.equal U' C = specAllowed Codec.equal U' C := fun U' =>
    Utils.intersect_eq_specAllowed Codec.equal U' C hkey
  refine ⟨hmain U, hmain supportedCodecs, ?_, rfl, by decide, by decide⟩
  show (Utils.intersect Codec.equal supportedCodecs C).head? = _
  rw [hmain supportedCodecs]

/-- Witness for C5 at the spec's example configuration. -/
theorem negotiator_construction_allowed_witness :
    (([ulawC, slin16C].map (fun c => c.name)).Nodup) ∧
    (Codecs.make (some [ulawC, slin16C])).codecs =
      specAllowed Codec.equal supportedCodecs [ulawC, slin16C] :=
  ⟨by decide,
   (negotiator_construction_allowed supportedCodecs [ulawC, slin16C] (by decide)).2.1⟩

/-- `true` exactly on the `ok` constructor (used to phrase "the resolution
succeeded/failed" as a decidable hypothesis). -/
def exceptOk : Except ε α → Bool
  | .ok _ => true
  | .error _ => false

/-- Routing: a `set`/`setup` request goes through `handleSetRequest`, the
response echoing the request name and id, errors landing in `error_msg`. -/
theorem handleRequest_set_like (speech : Speech) (rq id : String)
    (oc : Option (List Codec)) (op : Option ReqParams)
    (h1 : (rq == "get") = false) (h2 : (rq == "set" || rq == "setup") = true) :
    handleRequest speech ⟨rq, id, oc, op⟩ =
      match handleSetRequest speech ⟨rq, id, oc, op⟩ with
      | .ok out =>
        { speech := { speech with codecs := out.codecs, languages := out.languages }
          response := { response := rq, id := id, codecs := out.respCodecs
                        params := out.respParams }
          restartArg := out.restartArg }
      | .error e =>
        { speech := speech
          response := { response := rq, id := id, error_msg := some e }
          restartArg := none } := by
  unfold handleRequest
  simp only [h1, h2, Bool.false_eq_true, if_false, if_true]

/-- C1 (amended: the error text carries the codec/language names without
surrounding quotes): when exactly one of the codec resolution and the
language resolution of a `set`/`setup` request fails, neither negotiator
changes, no `restart` happens, and the response carries only `error_msg`,
whose text is the failing resolution's message. -/
theorem set_atomic_on_single_failure
    (speech : Speech) (reqName id : String) (cs : List Codec)
    (fs : List (String × String))
    (hreq : reqName = "set" ∨ reqName = "setup")
    (hx : (exceptOk (speech.codecs.first cs) = false ∧
           exceptOk (collectSetParams speech.languages fs) = true) ∨
          (exceptOk (speech.codecs.first cs) = true ∧
           exceptOk (collectSetParams speech.languages fs) = false)) :
    (handleRequest speech ⟨reqName, id, some cs, some (.fields fs)⟩).speech.codecs
        = speech.codecs ∧
    (handleRequest speech ⟨reqName, id, some cs, some (.fields fs)⟩).speech.languages
        = speech.languages ∧
    (handleRequest speech ⟨reqName, id, some cs, some (.fields fs)⟩).restartArg = none ∧
    (handleRequest speech ⟨reqName, id, some cs, some (.fields fs)⟩).response.codecs
        = none ∧
    (handleRequest speech ⟨reqName, id, some cs, some (.fields fs)⟩).response.params
        = none ∧
    ∃ e,
      (handleRequest speech ⟨reqName, id, some cs, some (.fields fs)⟩).response.error_msg
          = some e ∧
      (speech.codecs.first cs = .error e ∨
       collectSetParams speech.languages fs = .error e) := by
  have h1 : (reqName == "get") = false := by
    rcases hreq with h | h <;> subst h <;> rfl
  have h2 : (reqName == "set" || reqName == "setup") = true := by
    rcases hreq with h | h <;> subst h <;> rfl
  rw [handleRequest_set_like speech reqName id (some cs) (some (.fields fs)) h1 h2]
  cases hcr : speech.codecs.first cs with
  | error e =>
    have hset : handleSetRequest speech ⟨reqName, id, some cs, some (.fields fs)⟩
        = .error e := by
      unfold handleSetRequest
      dsimp only
      rw [hcr]
    rw [hset]
    exact ⟨rfl, rfl, rfl, rfl, rfl, e, rfl, Or.inl rfl⟩
  | ok c =>
    rcases hx with ⟨hf, _⟩ | ⟨_, hlf⟩
    · rw [hcr] at hf
      simp [exceptOk] at hf
    · cases hlr : collectSetParams speech.languages fs with
      | ok l =>
        rw [hlr] at hlf
        simp [exceptOk] at hlf
      | error e =>
        have hset : handleSetRequest speech ⟨reqName, id, some cs, some (.fields fs)⟩
            = .error e := by
          unfold handleSetRequest
          dsimp only
          rw [hcr]
          dsimp only [entriesOf]
          rw [hlr]
        rw [hset]
        exact ⟨rfl, rfl, rfl, rfl, rfl, e, rfl, Or.inr rfl⟩

/-- Witness for C1 at the spec's Example 2 input (codec fails, language
succeeds). -/
theorem set_atomic_on_single_failure_witness :
    (exceptOk (speechEx2.codecs.first [opusC]) = false ∧
     exceptOk (collectSetParams speechEx2.languages [("language", "en-US")]) = true) ∧
    ∃ e,
      (handleRequest speechEx2
          ⟨"set", "1", some [opusC], some (.fields [("language", "en-US")])⟩).response.error_msg
        = some e ∧
      (speechEx2.codecs.first [opusC] = .error e ∨
       collectSetParams speechEx2.languages [("language", "en-US")] = .error e) :=
  ⟨⟨by decide, by decide⟩,
   (set_atomic_on_single_failure speechEx2 "set" "1" [opusC] [("language", "en-US")]
     (Or.inl rfl) (Or.inl ⟨by decide, by decide⟩)).2.2.2.2.2⟩

/-- Counterexample for C1 as stated: at the spec's Example 2 input the code's
`error_msg` is `Codec opus not supported`, not the spec example's
`Codec 'opus' not supported`. -/
theorem set_error_text_differs :
    (handleRequest speechEx2
        ⟨"set", "1", some [opusC], some (.fields [("language", "en-US")])⟩).response.error_msg
      = some "Codec opus not supported" ∧
    (handleRequest speechEx2
        ⟨"set", "1", some [opusC], some (.fields [("language", "en-US")])⟩).response.error_msg
      ≠ some "Codec 'opus' not supported" := by
  refine ⟨rfl, ?_⟩
  intro h
  rw [show (handleRequest speechEx2
      ⟨"set", "1", some [opusC], some (.fields [("language", "en-US")])⟩).response.error_msg
      = some "Codec opus not supported" from rfl] at h
  simp at h

/-- Counterexample for C2: a `set` request carrying only a valid new language
(no `codecs` field) does not succeed — the line-62 guard throws
`Missing request parameters`, no `params.language` is returned, and no
restart happens. -/
theorem set_language_only_rejected :
    (handleRequest speechDefault
        ⟨"set", "1", none, some (.fields [("language", "en-US")])⟩).response.error_msg
      = some "Missing request parameters" ∧
    (handleRequest speechDefault
        ⟨"set", "1", none, some (.fields [("language", "en-US")])⟩).response.params
      = none ∧
    (handleRequest speechDefault
        ⟨"set", "1", none, some (.fields [("language", "en-US")])⟩).restartArg
      = none :=
  ⟨rfl, rfl, rfl⟩

/-- C2 (amended): a `set`/`setup` request is rejected with
`Missing request parameters` whenever the top-level `codecs` list or the
`params` object is absent — absent fields are not skipped; the request fails
with no negotiator change, no restart, and an untouched response body. -/
theorem set_requires_both_fields (speech : Speech) (reqName id : String)
    (oc : Option (List Codec)) (op : Option ReqParams)
    (hreq : reqName = "set" ∨ reqName = "setup")
    (habs : oc = none ∨ op = none) :
    (handleRequest speech ⟨reqName, id, oc, op⟩).response.error_msg
        = some "Missing request parameters" ∧
    (handleRequest speech ⟨reqName, id, oc, op⟩).speech = speech ∧
    (handleRequest speech ⟨reqName, id, oc, op⟩).restartArg = none ∧
    (handleRequest speech ⟨reqName, id, oc, op⟩).response.codecs = none ∧
    (handleRequest speech ⟨reqName, id, oc, op⟩).response.params = none := by
  have h1 : (reqName == "get") = false := by
    rcases hreq with h | h <;> subst h <;> rfl
  have h2 : (reqName == "set" || reqName == "setup") = true := by
    rcases hreq with h | h <;> subst h <;> rfl
  rw [handleRequest_set_like speech reqName id oc op h1 h2]
  have hset : handleSetRequest speech ⟨reqName, id, oc, op⟩
      = .error "Missing request parameters" := by
    unfold handleSetRequest
    rcases habs with h | h <;> subst h
    · cases op <;> rfl
    · cases oc <;> rfl
  rw [hset]
  exact ⟨rfl, rfl, rfl, rfl, rfl⟩

/-- Witness for C2's amended statement at a concrete `setup` request with no
`codecs` field. -/
theorem set_requires_both_fields_witness :
    ("setup" = "set" ∨ "setup" = "setup") ∧
    ((none : Option (List Codec)) = none ∨
      (some (ReqParams.fields [("language", "en-US")]) : Option ReqParams) = none) ∧
    (handleRequest speechDefault
        ⟨"setup", "7", none, some (.fields [("language", "en-US")])⟩).response.error_msg
      = some "Missing request parameters" :=
  ⟨Or.inr rfl, Or.inl rfl,
   (set_requires_both_fields speechDefault "setup" "7" none
     (some (.fields [("language", "en-US")])) (Or.inr rfl) (Or.inl rfl)).1⟩

/-- A session with one buffered provider result. -/
def speechWithResult : Speech :=
  { speechDefault with
    provider := { speechDefault.provider with results := [⟨"hello", 90⟩] } }

/-- C3 (code bug): evaluating `handleGetRequest` through the dispatcher.
Recognized names behave as claimed — `codec`/`language` report the selected
values, `results` drains the provider buffer, and an immediate second
`get results` returns an empty list — but an unrecognized name does NOT
produce only a warning: the `console.warn` line reads the undefined variable
`k` (the loop variable is `p`), so the request fails with a `ReferenceError`
surfaced as `error_msg`, and no `params` are returned. -/
theorem get_unrecognized_name_raises :
    ((handleRequest speechWithResult
        ⟨"get", "4", none, some (.names ["codec", "language", "results"])⟩).response.params
      = some { codecs := some ulawC, language := some "en-US"
               results := some [⟨"hello", 90⟩] }) ∧
    ((handleRequest speechWithResult
        ⟨"get", "4", none, some (.names ["codec", "language", "results"])⟩).speech.provider.results
      = []) ∧
    ((handleRequest
        (handleRequest speechWithResult
          ⟨"get", "4", none, some (.names ["codec", "language", "results"])⟩).speech
        ⟨"get", "5", none, some (.names ["results"])⟩).response.params
      = some { results := some [] }) ∧
    ((handleRequest speechWithResult
        ⟨"get", "6", none, some (.names ["codec", "bogus"])⟩).response.error_msg
      = some "k is not defined") ∧
    ((handleRequest speechWithResult
        ⟨"get", "6", none, some (.names ["codec", "bogus"])⟩).response.params
      = none) :=
  ⟨rfl, rfl, rfl, rfl, rfl⟩

/-- One buffer append keeps the length within the capacity. -/
theorem pushResult_length_le (max : Nat) (hmax : 0 < max) (acc : List SResult)
    (r : SResult) (h : acc.length ≤ max) :
    (GoogleProvider.pushResult max acc r).length ≤ max := by
  unfold GoogleProvider.pushResult
  by_cases hl : acc.length = max
  · rw [if_pos hl]
    simp only [List.length_append, List.length_tail, List.length_cons, List.length_nil]
    omega
  · rw [if_neg hl]
    simp only [List.length_append, List.length_cons, List.length_nil]
    omega

/-- Folding appends over a buffer within capacity stays within capacity. -/
theorem foldl_push_length_le (max : Nat) (hmax : 0 < max) (rs : List SResult) :
    ∀ acc : List SResult, acc.length ≤ max →
      (List.foldl (GoogleProvider.pushResult max) acc rs).length ≤ max := by
  induction rs with
  | nil => intro acc h; simpa using h
  | cons r rest ih =>
    intro acc h
    rw [List.foldl_cons]
    exact ih _ (pushResult_length_le max hmax acc r h)

/-- While the appends fit under the capacity no eviction happens: the fold is
plain concatenation. -/
theorem foldl_push_no_evict (max : Nat) (rs : List SResult) :
    ∀ acc : List SResult, acc.length + rs.length ≤ max →
      List.foldl (GoogleProvider.pushResult max) acc rs = acc ++ rs := by
  induction rs with
  | nil => intro acc _; simp
  | cons r rest ih =>
    intro acc h
    rw [List.foldl_cons]
    have hne : acc.length ≠ max := by
      simp only [List.length_cons] at h
      omega
    have hpush : GoogleProvider.pushResult max acc r = acc ++ [r] := by
      unfold GoogleProvider.pushResult
      rw [if_neg hne]
    rw [hpush, ih (acc ++ [r])
      (by simp only [List.length_append, List.length_cons, List.length_nil] at h ⊢; omega)]
    simp

/-- Filling the buffer from empty with exactly `max + 1` results evicts
precisely the first one: the fold equals the tail of the input. -/
theorem foldl_push_overflow (max : Nat) (hmax : 0 < max) (rs : List SResult)
    (hlen : rs.length = max + 1) :
    List.foldl (GoogleProvider.pushResult max) [] rs = rs.tail := by
  cases rs with
  | nil => simp at hlen
  | cons r1 rest =>
    have hrest : rest.length = max := by
      simp only [List.length_cons] at hlen
      omega
    rw [List.foldl_cons]
    have hpush1 : GoogleProvider.pushResult max [] r1 = [r1] := by
      unfold GoogleProvider.pushResult
      rw [if_neg (by simp; omega)]
      rfl
    rw [hpush1]
    rcases rest.eq_nil_or_concat' with hnil | ⟨init, rlast, hsplit⟩
    · subst hnil
      simp only [List.length_nil] at hrest
      omega
    · subst hsplit
      rw [List.foldl_append]
      have hinit : List.foldl (GoogleProvider.pushResult max) [r1] init = [r1] ++ init := by
        apply foldl_push_no_evict
        simp only [List.length_append, List.length_cons, List.length_nil] at hrest ⊢
        omega
      rw [hinit]
      simp only [List.foldl_cons, List.foldl_nil]
      unfold GoogleProvider.pushResult
      have hLen : ([r1] ++ init).length = max := by
        simp only [List.length_append, List.length_cons, List.length_nil] at hrest ⊢
        omega
      rw [if_pos hLen]
      simp

/-- The last element of a nonempty list is a member. -/
theorem getLast?_mem_of_eq_some {α : Type _} {l : List α} {a : α}
    (h : l.getLast? = some a) : a ∈ l := by
  cases l with
  | nil => simp at h
  | cons x xs =>
    rw [List.getLast?_eq_getLast (x :: xs) (by simp)] at h
    cases h
    exact List.getLast_mem _

/-- C6: for every sequence of emitted provider results the buffer built by
the provider's data-handler append never exceeds `maxResults` entries; after
the `(maxResults+1)`-th result the buffer is exactly the input's tail, so the
first result is gone (when it does not recur later), the newest result is
present, and the length is exactly `maxResults`. -/
theorem results_buffer_bounded (max : Nat) (hmax : 0 < max) (rs : List SResult) :
    (List.foldl (GoogleProvider.pushResult max) [] rs).length ≤ max ∧
    (rs.length = max + 1 →
      List.foldl (GoogleProvider.pushResult max) [] rs = rs.tail ∧
      (List.foldl (GoogleProvider.pushResult max) [] rs).length = max ∧
      (∀ r0, rs.head? = some r0 → r0 ∉ rs.tail →
        r0 ∉ List.foldl (GoogleProvider.pushResult max) [] rs) ∧
      (∀ rl, rs.getLast? = some rl →
        rl ∈ List.foldl (GoogleProvider.pushResult max) [] rs)) := by
  refine ⟨foldl_push_length_le max hmax rs [] (by simp), ?_⟩
  intro hlen
  have hov := foldl_push_overflow max hmax rs hlen
  refine ⟨hov, ?_, ?_, ?_⟩
  · rw [hov, List.length_tail, hlen]
    omega
  · intro r0 _ hnot
    rw [hov]
    exact hnot
  · intro rl hl
    rw [hov]
    cases rs with
    | nil => simp at hlen
    | cons r1 rest =>
      cases rest with
      | nil =>
        simp only [List.length_cons, List.length_nil] at hlen
        omega
      | cons r2 rest2 =>
        rw [List.getLast?_cons_cons] at hl
        exact getLast?_mem_of_eq_some hl

/-- Witness for C6 with capacity 2 and three pushed results. -/
theorem results_buffer_bounded_witness :
    0 < 2 ∧
    ([⟨"a", 1⟩, ⟨"b", 2⟩, ⟨"c", 3⟩] : List SResult).length = 2 + 1 ∧
    List.foldl (GoogleProvider.pushResult 2) []
        [⟨"a", 1⟩, ⟨"b", 2⟩, ⟨"c", 3⟩] = [⟨"b", 2⟩, ⟨"c", 3⟩] :=
  ⟨by decide, by decide, by
    rw [((results_buffer_bounded 2 (by decide)
      [⟨"a", 1⟩, ⟨"b", 2⟩, ⟨"c", 3⟩]).2 (by decide)).1]
    rfl⟩

/-- Routing: a `get` request goes through `handleGetRequest`. -/
theorem handleRequest_route_get (speech : Speech) (id : String)
    (oc : Option (List Codec)) (op : Option ReqParams) :
    handleRequest speech ⟨"get", id, oc, op⟩ =
      match handleGetRequest speech ⟨"get", id, oc, op⟩ with
      | (.ok params, buf) =>
        { speech := { speech with provider := { speech.provider with results := buf } }
          response := { response := "get", id := id, params := some params }
          restartArg := none }
      | (.error e, buf) =>
        { speech := { speech with provider := { speech.provider with results := buf } }
          response := { response := "get", id := id, error_msg := some e }
          restartArg := none } := rfl

/-- Routing: an unknown request kind yields the caught-`TypeError` response. -/
theorem handleRequest_route_unknown (speech : Speech) (r : Request)
    (h1 : (r.request == "get") = false)
    (h2 : (r.request == "set" || r.request == "setup") = false) :
    handleRequest speech r =
      { speech := speech
        response := { response := r.request, id := r.id
                      error_msg := some "handlers[msg.request] is not a function" }
        restartArg := none } := by
  unfold handleRequest
  simp only [h1, h2, Bool.false_eq_true, if_false]

/-- C7: request handling is total — for every inbound textual message with a
`request` field, a response echoing the request's `id` and `request` name is
produced and sent (never dropped); a thrown handler error surfaces verbatim
as `error_msg`; a normal handler return leaves `error_msg` empty; an unknown
request kind (a handler-lookup failure) is caught and reported, never an
unhandled fault. -/
theorem request_handling_total (speech : Speech) (r : Request) :
    (onTextMessage speech (.req r)).2 = some (handleRequest speech r).response ∧
    (handleRequest speech r).response.response = r.request ∧
    (handleRequest speech r).response.id = r.id ∧
    (∀ e, handlerResult speech r = .error e →
      (handleRequest speech r).response.error_msg = some e) ∧
    (handlerResult speech r = .ok () →
      (handleRequest speech r).response.error_msg = none) ∧
    (r.request ∉ (["get", "set", "setup"] : List String) →
      (handleRequest speech r).response.error_msg
        = some "handlers[msg.request] is not a function") := by
  refine ⟨rfl, ?_⟩
  obtain ⟨rq, rid, oc, op⟩ := r
  by_cases hg : rq = "get"
  · subst hg
    have hmemg : ({ request := "get", id := rid, codecs := oc, params := op } :
        Request).request ∈ (["get", "set", "setup"] : List String) :=
      show ("get" : String) ∈ _ by decide
    have hhr : handlerResult speech ⟨"get", rid, oc, op⟩
        = (handleGetRequest speech ⟨"get", rid, oc, op⟩).1.map (fun _ => ()) := rfl
    rcases hp : handleGetRequest speech ⟨"get", rid, oc, op⟩ with ⟨res, buf⟩
    rw [hp] at hhr
    cases res with
    | ok params =>
      rw [handleRequest_route_get, hp]
      refine ⟨rfl, rfl, ?_, fun _ => rfl, fun hmem => absurd hmemg hmem⟩
      intro e he
      rw [hhr] at he
      simp [Except.map] at he
    | error e0 =>
      rw [handleRequest_route_get, hp]
      refine ⟨rfl, rfl, ?_, ?_, fun hmem => absurd hmemg hmem⟩
      · intro e he
        rw [hhr] at he
        simp only [Except.map] at he
        cases he
        rfl
      · intro he
        rw [hhr] at he
        simp [Except.map] at he
  · by_cases hs : rq = "set" ∨ rq = "setup"
    · have h1 : (rq == "get") = false := by
        rcases hs with h | h <;> subst h <;> rfl
      have h2 : (rq == "set" || rq == "setup") = true := by
        rcases hs with h | h <;> subst h <;> rfl
      have hmems : ({ request := rq, id := rid, codecs := oc, params := op } :
          Request).request ∈ (["get", "set", "setup"] : List String) := by
        rcases hs with h | h <;> subst h
        · exact show ("set" : String) ∈ _ by decide
        · exact show ("setup" : String) ∈ _ by decide
      have hhr : handlerResult speech ⟨rq, rid, oc, op⟩
          = (handleSetRequest speech ⟨rq, rid, oc, op⟩).map (fun _ => ()) := by
        unfold handlerResult
        simp only [h1, h2, Bool.false_eq_true, if_false, if_true]
      rw [handleRequest_set_like speech rq rid oc op h1 h2]
      cases hset : handleSetRequest speech ⟨rq, rid, oc, op⟩ with
      | ok out =>
        rw [hset] at hhr
        refine ⟨rfl, rfl, ?_, fun _ => rfl, fun hmem => absurd hmems hmem⟩
        intro e he
        rw [hhr] at he
        simp [Except.map] at he
      | error e0 =>
        rw [hset] at hhr
        refine ⟨rfl, rfl, ?_, ?_, fun hmem => absurd hmems hmem⟩
        · intro e he
          rw [hhr] at he
          simp only [Except.map] at he
          cases he
          rfl
        · intro he
          rw [hhr] at he
          simp [Except.map] at he
    · push_neg at hs
      have h1 : (rq == "get") = false := by
        simpa using hg
      have h2 : (rq == "set" || rq == "setup") = false := by
        simp [hs.1, hs.2]
      have hhr : handlerResult speech ⟨rq, rid, oc, op⟩
          = .error "handlers[msg.request] is not a function" := by
        unfold handlerResult
        simp only [h1, h2, Bool.false_eq_true, if_false]
      rw [handleRequest_route_unknown speech ⟨rq, rid, oc, op⟩ h1 h2]
      refine ⟨rfl, rfl, ?_, ?_, fun _ => rfl⟩
      · intro e he
        rw [hhr] at he
        cases he
        rfl
      · intro he
        rw [hhr] at he
        simp at he

/-- Witness for C7 at an unknown request kind. -/
theorem request_handling_total_witness :
    ("frobnicate" ∉ (["get", "set", "setup"] : List String)) ∧
    (handleRequest speechDefault ⟨"frobnicate", "9", none, none⟩).response.error_msg
      = some "handlers[msg.request] is not a function" :=
  ⟨by decide,
   (request_handling_total speechDefault ⟨"frobnicate", "9", none, none⟩).2.2.2.2.2
     (by decide)⟩

/-- Shape of every successful `handleSetRequest` outcome: the restart argument
is the merged pair of the (new) selected values, the response always carries
`codecs`, and neither allowed list changes. -/
theorem handleSetRequest_ok_shape (speech : Speech) (r : Request) (out : SetOk)
    (h : handleSetRequest speech r = .ok out) :
    out.restartArg = some ⟨out.codecs.selected, out.languages.selected⟩ ∧
    out.respCodecs ≠ none ∧
    out.codecs.codecs = speech.codecs.codecs ∧
    out.languages.languages = speech.languages.languages := by
  unfold handleSetRequest at h
  cases hoc : r.codecs with
  | none =>
    rw [hoc] at h
    cases r.params <;> simp at h
  | some cs =>
    rw [hoc] at h
    cases hop : r.params with
    | none =>
      rw [hop] at h
      simp at h
    | some ps =>
      rw [hop] at h
      dsimp only at h
      cases hcr : speech.codecs.first cs with
      | error e =>
        rw [hcr] at h
        simp at h
      | ok codec =>
        rw [hcr] at h
        cases hlr : collectSetParams speech.languages (entriesOf ps) with
        | error e =>
          rw [hlr] at h
          simp at h
        | ok langOpt =>
          rw [hlr] at h
          dsimp only at h
          cases h
          cases langOpt <;> exact ⟨rfl, by simp, rfl, rfl⟩

/-- Counterexample for C8: a `set` that merely revalidates the
already-selected codec (allowed head `ulaw` on a default session) changes no
negotiated value, yet the provider is still told to restart. -/
theorem restart_on_unchanged_set :
    ((handleRequest speechDefault
        ⟨"set", "2", some [ulawC], some (.fields [])⟩).speech.codecs.selected
      = speechDefault.codecs.selected) ∧
    ((handleRequest speechDefault
        ⟨"set", "2", some [ulawC], some (.fields [])⟩).speech.languages.selected
      = speechDefault.languages.selected) ∧
    ((handleRequest speechDefault
        ⟨"set", "2", some [ulawC], some (.fields [])⟩).restartArg
      = some ⟨some ulawC, some "en-US"⟩) ∧
    ((handleRequest speechDefault
        ⟨"set", "2", some [ulawC], some (.fields [])⟩).restartArg
      ≠ none) :=
  ⟨rfl, rfl, rfl, by decide⟩

/-- C8 (amended): after a `set`/`setup` request the provider is told to
restart with the merged `{codec: selected, language: selected}` configuration
if and only if the request validated successfully — i.e. whenever the
response carries no `error_msg` (and then it always carries `codecs`) —
regardless of whether any selected value actually changed. -/
theorem restart_iff_request_validated (speech : Speech) (r : Request)
    (hreq : r.request = "set" ∨ r.request = "setup") :
    ((handleRequest speech r).response.error_msg = none →
      (handleRequest speech r).restartArg =
        some ⟨(handleRequest speech r).speech.codecs.selected,
              (handleRequest speech r).speech.languages.selected⟩ ∧
      (handleRequest speech r).response.codecs ≠ none) ∧
    ((handleRequest speech r).response.error_msg ≠ none →
      (handleRequest speech r).restartArg = none) := by
  obtain ⟨rq, rid, oc, op⟩ := r
  have h1 : (rq == "get") = false := by
    rcases hreq with h | h <;> subst h <;> rfl
  have h2 : (rq == "set" || rq == "setup") = true := by
    rcases hreq with h | h <;> subst h <;> rfl
  rw [handleRequest_set_like speech rq rid oc op h1 h2]
  cases hset : handleSetRequest speech ⟨rq, rid, oc, op⟩ with
  | ok out =>
    obtain ⟨hra, hrc, _, _⟩ := handleSetRequest_ok_shape speech _ out hset
    refine ⟨fun _ => ⟨?_, ?_⟩, fun hne => absurd rfl hne⟩
    · exact hra
    · exact hrc
  | error e =>
    exact ⟨fun h => (nomatch h), fun _ => rfl⟩

/-- Witness for C8 at a concrete successful `set` request. -/
theorem restart_iff_request_validated_witness :
    ((handleRequest speechDefault
        ⟨"set", "8", some [slin16C], some (.fields [("language", "en-US")])⟩).response.error_msg
      = none) ∧
    ((handleRequest speechDefault
        ⟨"set", "8", some [slin16C], some (.fields [("language", "en-US")])⟩).restartArg =
      some ⟨(handleRequest speechDefault
              ⟨"set", "8", some [slin16C], some (.fields [("language", "en-US")])⟩).speech.codecs.selected,
            (handleRequest speechDefault
              ⟨"set", "8", some [slin16C], some (.fields [("language", "en-US")])⟩).speech.languages.selected⟩) :=
  ⟨rfl,
   ((restart_iff_request_validated speechDefault
     ⟨"set", "8", some [slin16C], some (.fields [("language", "en-US")])⟩
     (Or.inl rfl)).1 rfl).1⟩

/-- C9 (code bug): `setConfig` with a supported codec merges the sample rate
but NOT the mapped encoding — the typo `update.encodingencoding` leaves
`config.encoding` at its previous value and creates a stray key instead; an
unrecognized codec or language fails with the `not supported` error and the
config is unchanged (the error is thrown before the merge); language merging
works as claimed. -/
theorem setConfig_encoding_typo :
    GoogleProvider.setConfig (GoogleProvider.make none) (some { codec := some slin16C }) =
      .ok { GoogleProvider.make none with
            config := { encoding := "MULAW", sampleRateHertz := 16000
                        languageCode := "en-US", encodingencoding := some "LINEAR16" } } ∧
    GoogleProvider.setConfig (GoogleProvider.make none)
        (some { codec := some ⟨"g729", 8000, []⟩ }) =
      .error "Codec 'g729 'not supported" ∧
    GoogleProvider.setConfig (GoogleProvider.make none) (some { language := some "fr-FR" }) =
      .error "Language 'fr-FR 'not supported" ∧
    GoogleProvider.setConfig (GoogleProvider.make none)
        (some { codec := some slin16C, language := some "en-US" }) =
      .ok { GoogleProvider.make none with
            config := { encoding := "MULAW", sampleRateHertz := 16000
                        languageCode := "en-US", encodingencoding := some "LINEAR16" } } :=
  ⟨rfl, rfl, rfl, rfl⟩

/-- C10: constructing the provider with explicit zero options is
indistinguishable from omitting them — `maxResults = 0` yields the default
100 and `restartTime = 0` yields the default 10, because the falsy `0` falls
through the `||` defaulting. -/
theorem zero_options_fall_through_to_defaults :
    GoogleProvider.make (some { restartTime := some 0, maxResults := some 0 }) =
      GoogleProvider.make none ∧
    (GoogleProvider.make (some { restartTime := some 0, maxResults := some 0 })).maxResults
      = 100 ∧
    (GoogleProvider.make (some { restartTime := some 0, maxResults := some 0 })).restartTimeout
      = 10 ∧
    (GoogleProvider.make none).maxResults = DEFAULT_MAX_RESULTS ∧
    (GoogleProvider.make none).restartTimeout = DEFAULT_RESTART_TIME :=
  ⟨rfl, rfl, rfl, rfl, rfl⟩
